import Mathlib

/-
Verification of src/change_authors.py: the identity-rewriting callback
`commit_callback` that a history-rewriting driver invokes once per commit.
The commit record is modelled as a structure holding the four identity
fields as byte sequences (lists of byte values), together with an opaque
`other` component standing for every remaining field of the record
(message, timestamps, parent links, tree reference, ...).
-/

namespace ChangeAuthors

/-- Byte values of an ASCII string literal, modelling a Python `b"..."`
bytes literal. -/
def bytes (s : String) : List Nat :=
  s.data.map Char.toNat

/-- The legacy author/committer name `b"Andrew Hewitt"`. -/
def legacyName : List Nat := bytes "Andrew Hewitt"

/-- The legacy author/committer email `b"andrew@caramel-code.com"`. -/
def legacyEmail : List Nat := bytes "andrew@caramel-code.com"

/-- The canonical replacement name `b"GigaElk"`. -/
def canonicalName : List Nat := bytes "GigaElk"

/-- The canonical replacement email `b"gigaelk@gmail.com"`. -/
def canonicalEmail : List Nat := bytes "gigaelk@gmail.com"

/-- One commit record, as handed to the callback by the driver.  `other`
stands for all fields the callback never mentions. -/
@[ext]
structure Commit (α : Type) where
  author_name : List Nat
  author_email : List Nat
  committer_name : List Nat
  committer_email : List Nat
  other : α

/-- First `if` statement of `commit_callback` (lines 4-7): rewrite the
author pair when both author fields match the legacy identity. -/
def applyAuthor {α : Type} (commit : Commit α) : Commit α :=
  if commit.author_email = legacyEmail ∧ commit.author_name = legacyName then
    { commit with author_email := canonicalEmail, author_name := canonicalName }
  else
    commit

/-- Second `if` statement of `commit_callback` (lines 10-13): rewrite the
committer pair when both committer fields match the legacy identity. -/
def applyCommitter {α : Type} (commit : Commit α) : Commit α :=
  if commit.committer_email = legacyEmail ∧ commit.committer_name = legacyName then
    { commit with committer_email := canonicalEmail, committer_name := canonicalName }
  else
    commit

/-- `commit_callback` from src/change_authors.py: the two conditional
in-place rewrites, executed in order on the same record. -/
def commit_callback {α : Type} (commit : Commit α) : Commit α :=
  applyCommitter (applyAuthor commit)

/-- `commit_callback` replayed step by step in an error monad: every
operation the Python body performs (field reads, byte-string comparisons,
field writes) is total, so each step is a `pure` computation and no step
produces an `Except.error`. -/
def commit_callbackE {α : Type} (commit : Commit α) : Except String (Commit α) := do
  let commit ←
    if commit.author_email = legacyEmail ∧ commit.author_name = legacyName then
      pure { commit with author_email := canonicalEmail, author_name := canonicalName }
    else
      pure commit
  if commit.committer_email = legacyEmail ∧ commit.committer_name = legacyName then
    pure { commit with committer_email := canonicalEmail, committer_name := canonicalName }
  else
    pure commit

/-- A convenient sample of non-matching committer data for witnesses. -/
def janeName : List Nat := bytes "Jane Doe"

/-- A convenient sample of non-matching committer email for witnesses. -/
def janeEmail : List Nat := bytes "jane@example.com"

lemma applyAuthor_committer_name {α : Type} (c : Commit α) :
    (applyAuthor c).committer_name = c.committer_name := by
  unfold applyAuthor
  split <;> rfl

lemma applyAuthor_committer_email {α : Type} (c : Commit α) :
    (applyAuthor c).committer_email = c.committer_email := by
  unfold applyAuthor
  split <;> rfl

lemma applyAuthor_other {α : Type} (c : Commit α) :
    (applyAuthor c).other = c.other := by
  unfold applyAuthor
  split <;> rfl

lemma applyCommitter_author_name {α : Type} (c : Commit α) :
    (applyCommitter c).author_name = c.author_name := by
  unfold applyCommitter
  split <;> rfl

lemma applyCommitter_author_email {α : Type} (c : Commit α) :
    (applyCommitter c).author_email = c.author_email := by
  unfold applyCommitter
  split <;> rfl

lemma applyCommitter_other {α : Type} (c : Commit α) :
    (applyCommitter c).other = c.other := by
  unfold applyCommitter
  split <;> rfl

/-- Field-by-field characterization of one call: each of the four identity
fields is rewritten to its canonical value exactly when its own pair
matches the legacy identity, and `other` is untouched. -/
lemma commit_callback_fields {α : Type} (c : Commit α) :
    (commit_callback c).author_name =
      (if c.author_email = legacyEmail ∧ c.author_name = legacyName then
        canonicalName else c.author_name) ∧
    (commit_callback c).author_email =
      (if c.author_email = legacyEmail ∧ c.author_name = legacyName then
        canonicalEmail else c.author_email) ∧
    (commit_callback c).committer_name =
      (if c.committer_email = legacyEmail ∧ c.committer_name = legacyName then
        canonicalName else c.committer_name) ∧
    (commit_callback c).committer_email =
      (if c.committer_email = legacyEmail ∧ c.committer_name = legacyName then
        canonicalEmail else c.committer_email) ∧
    (commit_callback c).other = c.other := by
  unfold commit_callback applyAuthor applyCommitter
  by_cases h1 : c.author_email = legacyEmail ∧ c.author_name = legacyName <;>
    by_cases h2 : c.committer_email = legacyEmail ∧ c.committer_name = legacyName <;>
      simp [h1, h2]

/-- After either conditional rewrite, the author pair of the result can
never again both equal the legacy identity: if it was rewritten the email
is the canonical one, which differs from the legacy email; otherwise the
guard was already false. -/
lemma author_guard_false_after {α : Type} (c : Commit α) :
    ¬ ((commit_callback c).author_email = legacyEmail ∧
       (commit_callback c).author_name = legacyName) := by
  have hf := commit_callback_fields c
  intro hx
  by_cases h : c.author_email = legacyEmail ∧ c.author_name = legacyName
  · rw [hf.2.1, if_pos h] at hx
    exact absurd hx.1 (by decide)
  · rw [hf.2.1, if_neg h, hf.1, if_neg h] at hx
    exact h hx

/-- Committer analogue of `author_guard_false_after`. -/
lemma committer_guard_false_after {α : Type} (c : Commit α) :
    ¬ ((commit_callback c).committer_email = legacyEmail ∧
       (commit_callback c).committer_name = legacyName) := by
  have hf := commit_callback_fields c
  intro hx
  by_cases h : c.committer_email = legacyEmail ∧ c.committer_name = legacyName
  · rw [hf.2.2.2.1, if_pos h] at hx
    exact absurd hx.1 (by decide)
  · rw [hf.2.2.2.1, if_neg h, hf.2.2.1, if_neg h] at hx
    exact h hx

/-- Sample commit record whose author and committer both carry the legacy
identity. -/
def sampleBoth : Commit Nat :=
  ⟨legacyName, legacyEmail, legacyName, legacyEmail, 7⟩

/-- Sample commit record with legacy author and non-matching committer. -/
def sampleAuthorOnly : Commit Nat :=
  ⟨legacyName, legacyEmail, janeName, janeEmail, 7⟩

/-- Same identity fields as `sampleAuthorOnly` but a different `other`
component of a different type. -/
def sampleAuthorOnlyB : Commit Bool :=
  ⟨legacyName, legacyEmail, janeName, janeEmail, true⟩

/-- Sample commit record with non-matching author and legacy committer. -/
def sampleCommitterOnly : Commit Nat :=
  ⟨janeName, janeEmail, legacyName, legacyEmail, 7⟩

/-- Sample commit record matching neither pair. -/
def sampleNone : Commit Nat :=
  ⟨janeName, janeEmail, janeName, janeEmail, 7⟩

/-- Sample commit record with partial matches only: author name matches
with a different email, committer email matches with a different name. -/
def samplePartial : Commit Nat :=
  ⟨legacyName, janeEmail, janeName, legacyEmail, 7⟩

/-- C1: every commit whose author_name is b"Andrew Hewitt" and whose
author_email is b"andrew@caramel-code.com" has, after one call to
commit_callback, author_name b"GigaElk" and author_email
b"gigaelk@gmail.com". -/
theorem author_pair_rewritten {α : Type} (c : Commit α)
    (hn : c.author_name = legacyName) (he : c.author_email = legacyEmail) :
    (commit_callback c).author_name = canonicalName ∧
    (commit_callback c).author_email = canonicalEmail := by
  have hf := commit_callback_fields c
  exact ⟨by rw [hf.1, if_pos ⟨he, hn⟩], by rw [hf.2.1, if_pos ⟨he, hn⟩]⟩

/-- C1 witness: the rewrite happens on a concrete legacy-author record. -/
theorem author_pair_rewritten_witness :
    sampleAuthorOnly.author_name = legacyName ∧
    sampleAuthorOnly.author_email = legacyEmail ∧
    ((commit_callback sampleAuthorOnly).author_name = canonicalName ∧
     (commit_callback sampleAuthorOnly).author_email = canonicalEmail) :=
  ⟨rfl, rfl, author_pair_rewritten sampleAuthorOnly rfl rfl⟩

/-- C2: every commit whose committer_name is b"Andrew Hewitt" and whose
committer_email is b"andrew@caramel-code.com" has, after one call to
commit_callback, committer_name b"GigaElk" and committer_email
b"gigaelk@gmail.com". -/
theorem committer_pair_rewritten {α : Type} (c : Commit α)
    (hn : c.committer_name = legacyName) (he : c.committer_email = legacyEmail) :
    (commit_callback c).committer_name = canonicalName ∧
    (commit_callback c).committer_email = canonicalEmail := by
  have hf := commit_callback_fields c
  exact ⟨by rw [hf.2.2.1, if_pos ⟨he, hn⟩], by rw [hf.2.2.2.1, if_pos ⟨he, hn⟩]⟩

/-- C2 witness: the rewrite happens on a concrete legacy-committer record. -/
theorem committer_pair_rewritten_witness :
    sampleCommitterOnly.committer_name = legacyName ∧
    sampleCommitterOnly.committer_email = legacyEmail ∧
    ((commit_callback sampleCommitterOnly).committer_name = canonicalName ∧
     (commit_callback sampleCommitterOnly).committer_email = canonicalEmail) :=
  ⟨rfl, rfl, committer_pair_rewritten sampleCommitterOnly rfl rfl⟩

/-- C3: when the author pair does not both equal the legacy identity
(partial matches included), commit_callback leaves author_name and
author_email exactly unchanged; symmetrically for the committer pair. -/
theorem non_matching_pair_unchanged {α : Type} (c : Commit α) :
    (¬ (c.author_name = legacyName ∧ c.author_email = legacyEmail) →
      (commit_callback c).author_name = c.author_name ∧
      (commit_callback c).author_email = c.author_email) ∧
    (¬ (c.committer_name = legacyName ∧ c.committer_email = legacyEmail) →
      (commit_callback c).committer_name = c.committer_name ∧
      (commit_callback c).committer_email = c.committer_email) := by
  have hf := commit_callback_fields c
  constructor
  · intro h
    have h2 : ¬ (c.author_email = legacyEmail ∧ c.author_name = legacyName) :=
      fun hx => h ⟨hx.2, hx.1⟩
    exact ⟨by rw [hf.1, if_neg h2], by rw [hf.2.1, if_neg h2]⟩
  · intro h
    have h2 : ¬ (c.committer_email = legacyEmail ∧ c.committer_name = legacyName) :=
      fun hx => h ⟨hx.2, hx.1⟩
    exact ⟨by rw [hf.2.2.1, if_neg h2], by rw [hf.2.2.2.1, if_neg h2]⟩

/-- C3 witness: on a record whose author name matches but whose email
differs, and whose committer email matches but whose name differs, both
pairs are left unchanged. -/
theorem non_matching_pair_unchanged_witness :
    (¬ (samplePartial.author_name = legacyName ∧
        samplePartial.author_email = legacyEmail) ∧
      (commit_callback samplePartial).author_name = samplePartial.author_name ∧
      (commit_callback samplePartial).author_email = samplePartial.author_email) ∧
    (¬ (samplePartial.committer_name = legacyName ∧
        samplePartial.committer_email = legacyEmail) ∧
      (commit_callback samplePartial).committer_name = samplePartial.committer_name ∧
      (commit_callback samplePartial).committer_email = samplePartial.committer_email) :=
  ⟨⟨by decide, (non_matching_pair_unchanged samplePartial).1 (by decide)⟩,
   ⟨by decide, (non_matching_pair_unchanged samplePartial).2 (by decide)⟩⟩

/-- C4: the author rewrite and the committer rewrite are independent:
each output pair depends only on its own input pair (stated as
noninterference across two records agreeing on that pair), a matching
author with a non-matching committer leaves the committer untouched, a
matching committer with a non-matching author leaves the author untouched,
and when both pairs match both are rewritten in the same call. -/
theorem author_committer_independent {α β : Type} (c : Commit α) (d : Commit β) :
    (c.committer_name = d.committer_name → c.committer_email = d.committer_email →
      (commit_callback c).committer_name = (commit_callback d).committer_name ∧
      (commit_callback c).committer_email = (commit_callback d).committer_email) ∧
    (c.author_name = d.author_name → c.author_email = d.author_email →
      (commit_callback c).author_name = (commit_callback d).author_name ∧
      (commit_callback c).author_email = (commit_callback d).author_email) ∧
    ((c.author_name = legacyName ∧ c.author_email = legacyEmail) →
      ¬ (c.committer_name = legacyName ∧ c.committer_email = legacyEmail) →
      (commit_callback c).committer_name = c.committer_name ∧
      (commit_callback c).committer_email = c.committer_email) ∧
    (¬ (c.author_name = legacyName ∧ c.author_email = legacyEmail) →
      (c.committer_name = legacyName ∧ c.committer_email = legacyEmail) →
      (commit_callback c).author_name = c.author_name ∧
      (commit_callback c).author_email = c.author_email) ∧
    ((c.author_name = legacyName ∧ c.author_email = legacyEmail) →
      (c.committer_name = legacyName ∧ c.committer_email = legacyEmail) →
      (commit_callback c).author_name = canonicalName ∧
      (commit_callback c).author_email = canonicalEmail ∧
      (commit_callback c).committer_name = canonicalName ∧
      (commit_callback c).committer_email = canonicalEmail) := by
  have hfc := commit_callback_fields c
  have hfd := commit_callback_fields d
  refine ⟨fun hn he => ?_, fun hn he => ?_, fun hA hC => ?_, fun hA hC => ?_,
    fun hA hC => ?_⟩
  · exact ⟨by rw [hfc.2.2.1, hfd.2.2.1, hn, he], by rw [hfc.2.2.2.1, hfd.2.2.2.1, hn, he]⟩
  · exact ⟨by rw [hfc.1, hfd.1, hn, he], by rw [hfc.2.1, hfd.2.1, hn, he]⟩
  · have h2 : ¬ (c.committer_email = legacyEmail ∧ c.committer_name = legacyName) :=
      fun hx => hC ⟨hx.2, hx.1⟩
    exact ⟨by rw [hfc.2.2.1, if_neg h2], by rw [hfc.2.2.2.1, if_neg h2]⟩
  · have h2 : ¬ (c.author_email = legacyEmail ∧ c.author_name = legacyName) :=
      fun hx => hA ⟨hx.2, hx.1⟩
    exact ⟨by rw [hfc.1, if_neg h2], by rw [hfc.2.1, if_neg h2]⟩
  · exact ⟨by rw [hfc.1, if_pos ⟨hA.2, hA.1⟩], by rw [hfc.2.1, if_pos ⟨hA.2, hA.1⟩],
      by rw [hfc.2.2.1, if_pos ⟨hC.2, hC.1⟩], by rw [hfc.2.2.2.1, if_pos ⟨hC.2, hC.1⟩]⟩

/-- C4 witness: exercised on concrete records — two records sharing their
(non-matching) committer pair get identical committer output even though
their author pairs differ, a legacy-author record with a non-matching
committer keeps its committer, and a record matching both pairs has both
rewritten. -/
theorem author_committer_independent_witness :
    ((commit_callback sampleAuthorOnly).committer_name =
        (commit_callback sampleNone).committer_name ∧
      (commit_callback sampleAuthorOnly).committer_email =
        (commit_callback sampleNone).committer_email) ∧
    ((commit_callback sampleAuthorOnly).committer_name =
        sampleAuthorOnly.committer_name ∧
      (commit_callback sampleAuthorOnly).committer_email =
        sampleAuthorOnly.committer_email) ∧
    ((commit_callback sampleBoth).author_name = canonicalName ∧
      (commit_callback sampleBoth).author_email = canonicalEmail ∧
      (commit_callback sampleBoth).committer_name = canonicalName ∧
      (commit_callback sampleBoth).committer_email = canonicalEmail) :=
  ⟨(author_committer_independent sampleAuthorOnly sampleNone).1 rfl rfl,
   (author_committer_independent sampleAuthorOnly sampleNone).2.2.1
     ⟨rfl, rfl⟩ (by decide),
   (author_committer_independent sampleBoth sampleNone).2.2.2.2
     ⟨rfl, rfl⟩ ⟨rfl, rfl⟩⟩

/-- C5: commit_callback is idempotent — a second call on the result of a
first call changes nothing, because the canonical identity never satisfies
the legacy-pair guard. -/
theorem commit_callback_idempotent {α : Type} (c : Commit α) :
    commit_callback (commit_callback c) = commit_callback c := by
  have hg := commit_callback_fields (commit_callback c)
  have hA := author_guard_false_after c
  have hC := committer_guard_false_after c
  ext
  · rw [hg.1, if_neg hA]
  · rw [hg.2.1, if_neg hA]
  · rw [hg.2.2.1, if_neg hC]
  · rw [hg.2.2.2.1, if_neg hC]
  · exact hg.2.2.2.2

/-- C6: commit_callback changes at most the four identity fields, and each
only under its own exact-match guard; every other component of the record
(`other`, standing for message, timestamps, parents, tree, ...) is left
unchanged, and being a pure function of the record it has no further
effect. -/
theorem frame_only_identity_fields {α : Type} (c : Commit α) :
    (commit_callback c).other = c.other ∧
    (¬ (c.author_name = legacyName ∧ c.author_email = legacyEmail) →
      (commit_callback c).author_name = c.author_name ∧
      (commit_callback c).author_email = c.author_email) ∧
    (¬ (c.committer_name = legacyName ∧ c.committer_email = legacyEmail) →
      (commit_callback c).committer_name = c.committer_name ∧
      (commit_callback c).committer_email = c.committer_email) := by
  have hf := commit_callback_fields c
  refine ⟨hf.2.2.2.2, fun h => ?_, fun h => ?_⟩
  · have h2 : ¬ (c.author_email = legacyEmail ∧ c.author_name = legacyName) :=
      fun hx => h ⟨hx.2, hx.1⟩
    exact ⟨by rw [hf.1, if_neg h2], by rw [hf.2.1, if_neg h2]⟩
  · have h2 : ¬ (c.committer_email = legacyEmail ∧ c.committer_name = legacyName) :=
      fun hx => h ⟨hx.2, hx.1⟩
    exact ⟨by rw [hf.2.2.1, if_neg h2], by rw [hf.2.2.2.1, if_neg h2]⟩

/-- C6 witness: on a concrete non-matching record the `other` component
and both identity pairs come out unchanged. -/
theorem frame_only_identity_fields_witness :
    (commit_callback sampleNone).other = sampleNone.other ∧
    ((commit_callback sampleNone).author_name = sampleNone.author_name ∧
      (commit_callback sampleNone).author_email = sampleNone.author_email) :=
  ⟨(frame_only_identity_fields sampleNone).1,
   (frame_only_identity_fields sampleNone).2.1 (by decide)⟩

/-- C7: commit_callback never fails — replaying the body step by step in
an error monad yields `Except.ok` of the rewritten record on every input,
empty byte sequences and arbitrary (malformed) byte sequences included;
non-matching fields simply fail the comparison and pass through. -/
theorem commit_callbackE_never_fails {α : Type} (c : Commit α) :
    commit_callbackE c = Except.ok (commit_callback c) := by
  unfold commit_callbackE commit_callback applyAuthor applyCommitter
  by_cases h1 : c.author_email = legacyEmail ∧ c.author_name = legacyName <;>
    by_cases h2 : c.committer_email = legacyEmail ∧ c.committer_name = legacyName <;>
      simp [h1, h2] <;> rfl

/-- C8: commit_callback is deterministic and its identity output depends
only on the four identity input fields: two records agreeing on those four
fields — even with different remaining data — produce the same four output
fields. -/
theorem commit_callback_deterministic {α β : Type} (c : Commit α) (d : Commit β)
    (h1 : c.author_name = d.author_name) (h2 : c.author_email = d.author_email)
    (h3 : c.committer_name = d.committer_name)
    (h4 : c.committer_email = d.committer_email) :
    (commit_callback c).author_name = (commit_callback d).author_name ∧
    (commit_callback c).author_email = (commit_callback d).author_email ∧
    (commit_callback c).committer_name = (commit_callback d).committer_name ∧
    (commit_callback c).committer_email = (commit_callback d).committer_email := by
  have hfc := commit_callback_fields c
  have hfd := commit_callback_fields d
  refine ⟨?_, ?_, ?_, ?_⟩
  · rw [hfc.1, hfd.1, h1, h2]
  · rw [hfc.2.1, hfd.2.1, h1, h2]
  · rw [hfc.2.2.1, hfd.2.2.1, h3, h4]
  · rw [hfc.2.2.2.1, hfd.2.2.2.1, h3, h4]

/-- C8 witness: two concrete records with equal identity fields but
different extra data (of different types) get equal identity output. -/
theorem commit_callback_deterministic_witness :
    (commit_callback sampleAuthorOnly).author_name =
        (commit_callback sampleAuthorOnlyB).author_name ∧
    (commit_callback sampleAuthorOnly).author_email =
        (commit_callback sampleAuthorOnlyB).author_email ∧
    (commit_callback sampleAuthorOnly).committer_name =
        (commit_callback sampleAuthorOnlyB).committer_name ∧
    (commit_callback sampleAuthorOnly).committer_email =
        (commit_callback sampleAuthorOnlyB).committer_email :=
  commit_callback_deterministic sampleAuthorOnly sampleAuthorOnlyB rfl rfl rfl rfl

/-- C9: after a call, the full legacy pair never survives in either role —
the output never simultaneously has the legacy name and legacy email as
its author pair, nor as its committer pair. -/
theorem legacy_pair_never_survives {α : Type} (c : Commit α) :
    ¬ ((commit_callback c).author_name = legacyName ∧
       (commit_callback c).author_email = legacyEmail) ∧
    ¬ ((commit_callback c).committer_name = legacyName ∧
       (commit_callback c).committer_email = legacyEmail) :=
  ⟨fun hx => author_guard_false_after c ⟨hx.2, hx.1⟩,
   fun hx => committer_guard_false_after c ⟨hx.2, hx.1⟩⟩

/-- C10: each identity pair is updated atomically — after a call, either
both fields of the pair hold the canonical values or both are unchanged,
never exactly one; for the author pair and the committer pair alike. -/
theorem pair_atomicity {α : Type} (c : Commit α) :
    (((commit_callback c).author_name = canonicalName ∧
      (commit_callback c).author_email = canonicalEmail) ∨
     ((commit_callback c).author_name = c.author_name ∧
      (commit_callback c).author_email = c.author_email)) ∧
    (((commit_callback c).committer_name = canonicalName ∧
      (commit_callback c).committer_email = canonicalEmail) ∨
     ((commit_callback c).committer_name = c.committer_name ∧
      (commit_callback c).committer_email = c.committer_email)) := by
  have hf := commit_callback_fields c
  constructor
  · by_cases h : c.author_email = legacyEmail ∧ c.author_name = legacyName
    · exact Or.inl ⟨by rw [hf.1, if_pos h], by rw [hf.2.1, if_pos h]⟩
    · exact Or.inr ⟨by rw [hf.1, if_neg h], by rw [hf.2.1, if_neg h]⟩
  · by_cases h : c.committer_email = legacyEmail ∧ c.committer_name = legacyName
    · exact Or.inl ⟨by rw [hf.2.2.1, if_pos h], by rw [hf.2.2.2.1, if_pos h]⟩
    · exact Or.inr ⟨by rw [hf.2.2.1, if_neg h], by rw [hf.2.2.2.1, if_neg h]⟩

end ChangeAuthors
